import Mathlib

/-!
Verification of the deepalert alert-deduplication and report-aggregation
engine (`internal/service` RepositoryService) against its specification.

The service layer (`TakeReport`, `SaveAlertCache`/`FetchAlertCache`,
`SaveInspectReport`/`FetchInspectReport`, `remapSection`,
`PutAttributeCache`, `FetchAttributeCache`) is translated from
`internal/api/api.go` (the `service` package part).  The `deepalert`
payload types, the `models` record types and the DynamoDB repository
adaptor are not part of the provided sources; those are modelled from the
spec (each such definition carries a `Modelled from the spec:` comment).
-/

namespace DeepAlert

/-- Modelled from the spec: wall-clock instants.  Go `time.Time` is modelled
as whole seconds plus a nanosecond remainder; `Unix()` truncates to whole
seconds and `time.Unix(sec, 0)` rebuilds an instant with zero nanoseconds. -/
structure Time where
  sec : Int
  nsec : Nat
  deriving DecidableEq, Repr

/-- Modelled from the spec: an Attribute is a typed key/value extracted from
an alert, with optional free-form context and optional timestamp
(`deepalert.Attribute` is not under the provided sources). -/
structure Attribute where
  attrType : String
  key : String
  value : String
  context : List String
  timestamp : Option Time
  deriving DecidableEq, Repr

/-- Modelled from the spec: `Attribute.Hash()` is a deterministic fingerprint
over the identity fields (type, key, value), excluding timestamp and
context-irrelevant noise; equal attributes hash identically.  The concrete
fingerprint is modelled as a canonical encoding of those fields. -/
def Attribute.hash (a : Attribute) : String :=
  a.attrType ++ "/" ++ a.key ++ "/" ++ a.value

/-- Modelled from the spec: an Alert carries the source-detector name, rule
name, alert key, its attributes and an optional timestamp. -/
structure Alert where
  detector : String
  ruleName : String
  alertKey : String
  attributes : List Attribute
  timestamp : Option Time
  deriving DecidableEq, Repr

/-- Modelled from the spec: `Alert.AlertID()` is a deterministic fingerprint
of (detector, rule name, alert key); repeated occurrences of the same
incident share an AlertID. -/
def Alert.alertID (a : Alert) : String :=
  a.detector ++ "/" ++ a.ruleName ++ "/" ++ a.alertKey

/-- Modelled from the spec: host-typed inspection content
(`deepalert.ReportHost`); the payload fields are opaque to the engine. -/
structure ReportHost where
  data : String
  deriving DecidableEq, Repr

/-- Modelled from the spec: user-typed inspection content
(`deepalert.ReportUser`). -/
structure ReportUser where
  data : String
  deriving DecidableEq, Repr

/-- Modelled from the spec: binary-typed inspection content
(`deepalert.ReportBinary`). -/
structure ReportBinary where
  data : String
  deriving DecidableEq, Repr

/-- Modelled from the spec: the dynamic payload carried in a Finding's
`Content` field (`interface{}` in Go, holding one of the typed report
contents).  The Go type assertion `Content.(*deepalert.ReportHost)` is the
match on the `host` constructor, and so on. -/
inductive ReportContent where
  | host (h : ReportHost)
  | user (u : ReportUser)
  | binary (b : ReportBinary)
  deriving DecidableEq, Repr

/-- Modelled from the spec: the content-kind tag `deepalert.ContentHost`. -/
def contentHost : String := "host"

/-- Modelled from the spec: the content-kind tag `deepalert.ContentUser`. -/
def contentUser : String := "user"

/-- Modelled from the spec: the content-kind tag `deepalert.ContentBinary`. -/
def contentBinary : String := "binary"

/-- Modelled from the spec: a Finding (`deepalert.InspectReport`): inspector
output for one (ReportID, Attribute), tagged with a content kind and
carrying the typed content payload. -/
structure InspectReport where
  reportID : String
  attr : Attribute
  type : String
  content : ReportContent
  deriving DecidableEq, Repr

/-- Modelled from the spec: a ReportSection groups all Findings sharing one
AttributeHash: the originating attribute plus the accumulated typed
collections. -/
structure ReportSection where
  originAttr : Attribute
  hosts : List ReportHost := []
  users : List ReportUser := []
  binaries : List ReportBinary := []
  deriving DecidableEq, Repr

/-- Modelled from the spec: report status (`deepalert.StatusNew` /
`deepalert.StatusMore`). -/
inductive ReportStatus where
  | new
  | more
  deriving DecidableEq, Repr

/-- Modelled from the spec: the externally visible Report aggregate.
`TakeReport` in the source sets only `ID`, `Status` and `CreatedAt`; the
`Alerts` and `Sections` collections are left at their zero value. -/
structure Report where
  id : String
  status : ReportStatus
  createdAt : Time
  alerts : List Alert := []
  sections : List ReportSection := []
  deriving DecidableEq, Repr

/-! ## Section assembly (`remapSection`, api.go lines 319-360)

The Go code folds the list of `InspectReport`s into a map from attribute
hash to `*ReportSection`: a missing hash inserts a fresh section whose
`OriginAttr` is the current finding's attribute, then the switch on the
content kind appends the payload to the matching collection, failing when
the type assertion fails and ignoring unknown kinds.  The unordered Go map
is embedded as an association list in insertion order. -/

/-- Association-list lookup used to embed the Go map `sections[hv]`. -/
def lookupSec : List (String × ReportSection) → String → Option ReportSection
  | [], _ => none
  | (k, sec) :: rest, hv => if k = hv then some sec else lookupSec rest hv

/-- Update the section stored at the given hash, propagating a failure of
the update function (the in-place mutation of `section` in the Go loop). -/
def updateSec (hv : String) (f : ReportSection → Except String ReportSection) :
    List (String × ReportSection) → Except String (List (String × ReportSection))
  | [] => .ok []
  | (k, sec) :: rest =>
    if k = hv then
      match f sec with
      | .error e => .error e
      | .ok sec2 => .ok ((k, sec2) :: rest)
    else
      match updateSec hv f rest with
      | .error e => .error e
      | .ok rest2 => .ok ((k, sec) :: rest2)

/-- The switch on `ir.Type` in `remapSection` (api.go lines 331-352): each
known kind appends the payload to the matching collection after the type
assertion, a failed assertion is an error (the `ContentBinary` branch's
message names `ReportHost`, exactly as in the source), and an unknown kind
falls through the switch without touching the section. -/
def addContent (sec : ReportSection) (ty : String) (c : ReportContent) :
    Except String ReportSection :=
  if ty = contentHost then
    match c with
    | .host h => .ok { sec with hosts := sec.hosts ++ [h] }
    | _ => .error "Can not cast content to deepalert.ReportHost"
  else if ty = contentUser then
    match c with
    | .user u => .ok { sec with users := sec.users ++ [u] }
    | _ => .error "Can not cast content to deepalert.ReportUser"
  else if ty = contentBinary then
    match c with
    | .binary b => .ok { sec with binaries := sec.binaries ++ [b] }
    | _ => .error "Can not cast content to deepalert.ReportHost"
  else
    .ok sec

/-- The loop of `remapSection`: for each finding, ensure a section exists
for its attribute hash (initializing `OriginAttr` from the first finding of
that hash), then dispatch the content. -/
def remapSectionAux (secs : List (String × ReportSection)) :
    List InspectReport → Except String (List (String × ReportSection))
  | [] => .ok secs
  | ir :: rest =>
    let hv := ir.attr.hash
    let secs1 :=
      match lookupSec secs hv with
      | some _ => secs
      | none => secs ++ [(hv, { originAttr := ir.attr })]
    match updateSec hv (fun sec => addContent sec ir.type ir.content) secs1 with
    | .error e => .error e
    | .ok secs2 => remapSectionAux secs2 rest

/-- `remapSection` (api.go lines 319-360): group findings by attribute hash
into sections.  The final iteration over the Go map is the projection of the
association list to its values. -/
def remapSection (inspectReports : List InspectReport) :
    Except String (List ReportSection) :=
  match remapSectionAux [] inspectReports with
  | .error e => .error e
  | .ok secs => .ok (secs.map (fun p => p.2))

/-! ## JSON wire model

The engine serializes Alerts and Findings with `encoding/json`.  The codec
lives in the `deepalert` package, outside the provided sources; it is
modelled from the spec: wire payloads are JSON-serialized records matching
the field sets of the data model, preserving field names and optionality,
with the content payload carried together with its kind tag. -/

/-- Modelled from the spec: a JSON value. -/
inductive Json where
  | str (s : String)
  | num (n : Int)
  | null
  | arr (xs : List Json)
  | obj (fields : List (String × Json))

/-- Modelled from the spec: JSON encoding of an instant. -/
def encodeTime (t : Time) : Json :=
  .obj [("sec", .num t.sec), ("nsec", .num (t.nsec : Int))]

/-- Modelled from the spec: JSON decoding of an instant. -/
def decodeTime : Json → Option Time
  | .obj [("sec", .num s), ("nsec", .num n)] => some ⟨s, n.toNat⟩
  | _ => none

/-- Modelled from the spec: an optional timestamp field is `null` when
absent. -/
def encodeOptTime : Option Time → Json
  | none => .null
  | some t => encodeTime t

/-- Modelled from the spec: decoding of an optional timestamp field. -/
def decodeOptTime : Json → Option (Option Time)
  | .null => some none
  | j => (decodeTime j).map some

/-- Modelled from the spec: a list of strings is a JSON array of strings. -/
def encodeStrList (l : List String) : Json :=
  .arr (l.map .str)

/-- Modelled from the spec: element-wise decoding of an array of strings,
failing on the first non-string element. -/
def decodeStrs : List Json → Option (List String)
  | [] => some []
  | .str s :: rest =>
    match decodeStrs rest with
    | some l => some (s :: l)
    | none => none
  | _ => none

/-- Modelled from the spec: decoding of a JSON array of strings. -/
def decodeStrList : Json → Option (List String)
  | .arr xs => decodeStrs xs
  | _ => none

/-- Modelled from the spec: JSON encoding of an Attribute, preserving the
field set (type, key, value, context, timestamp). -/
def encodeAttribute (a : Attribute) : Json :=
  .obj [("type", .str a.attrType), ("key", .str a.key), ("value", .str a.value),
        ("context", encodeStrList a.context), ("timestamp", encodeOptTime a.timestamp)]

/-- Modelled from the spec: JSON decoding of an Attribute. -/
def decodeAttribute : Json → Option Attribute
  | .obj [("type", .str ty), ("key", .str k), ("value", .str v),
          ("context", ctx), ("timestamp", ts)] =>
    match decodeStrList ctx, decodeOptTime ts with
    | some c, some t => some ⟨ty, k, v, c, t⟩
    | _, _ => none
  | _ => none

/-- Modelled from the spec: JSON encoding of an Alert. -/
def encodeAlert (a : Alert) : Json :=
  .obj [("detector", .str a.detector), ("rule_name", .str a.ruleName),
        ("alert_key", .str a.alertKey),
        ("attributes", .arr (a.attributes.map encodeAttribute)),
        ("timestamp", encodeOptTime a.timestamp)]

/-- Modelled from the spec: element-wise decoding of an array of
attributes. -/
def decodeAttrs : List Json → Option (List Attribute)
  | [] => some []
  | j :: rest =>
    match decodeAttribute j, decodeAttrs rest with
    | some a, some l => some (a :: l)
    | _, _ => none

/-- Modelled from the spec: JSON decoding of an Alert. -/
def decodeAlert : Json → Option Alert
  | .obj [("detector", .str d), ("rule_name", .str r), ("alert_key", .str k),
          ("attributes", .arr xs), ("timestamp", ts)] =>
    match decodeAttrs xs, decodeOptTime ts with
    | some attrs, some t => some ⟨d, r, k, attrs, t⟩
    | _, _ => none
  | _ => none

/-- Modelled from the spec: JSON encoding of a Finding's typed content
payload, tagged so that deserialization restores the typed value. -/
def encodeContent : ReportContent → Json
  | .host h => .obj [("kind", .str "host"), ("data", .str h.data)]
  | .user u => .obj [("kind", .str "user"), ("data", .str u.data)]
  | .binary b => .obj [("kind", .str "binary"), ("data", .str b.data)]

/-- Modelled from the spec: JSON decoding of a Finding's content payload. -/
def decodeContent : Json → Option ReportContent
  | .obj [("kind", .str "host"), ("data", .str d)] => some (.host ⟨d⟩)
  | .obj [("kind", .str "user"), ("data", .str d)] => some (.user ⟨d⟩)
  | .obj [("kind", .str "binary"), ("data", .str d)] => some (.binary ⟨d⟩)
  | _ => none

/-- Modelled from the spec: JSON encoding of a Finding
(`deepalert.InspectReport`). -/
def encodeInspectReport (ir : InspectReport) : Json :=
  .obj [("report_id", .str ir.reportID), ("attribute", encodeAttribute ir.attr),
        ("type", .str ir.type), ("content", encodeContent ir.content)]

/-- Modelled from the spec: JSON decoding of a Finding. -/
def decodeInspectReport : Json → Option InspectReport
  | .obj [("report_id", .str rid), ("attribute", a), ("type", .str ty),
          ("content", c)] =>
    match decodeAttribute a, decodeContent c with
    | some attr, some content => some ⟨rid, attr, ty, content⟩
    | _, _ => none
  | _ => none

/-! ## Store records and the repository adaptor

The `models` record types and the DynamoDB adaptor behind
`adaptor.Repository` are outside the provided sources; they are modelled
from the spec: records carry partition/sort keys and an expiry timestamp the
store honors, and the dedup writes are atomic conditional creates that fail
with a conditional-check failure exactly when a live (non-expired) record
already occupies the key (`TryCreate(key, value) -> Created | AlreadyExists
| Error`). -/

/-- Modelled from the spec: `models.AlertEntry` — the `AlertID -> ReportID`
record, with the `RecordBase` key and time fields inlined. -/
structure AlertEntry where
  pkey : String
  skey : String
  expiresAt : Int
  createdAt : Int
  reportID : String
  deriving DecidableEq, Repr

/-- Modelled from the spec: `models.AttributeCache` — the per
(ReportID, AttributeHash) dispatch-dedup record. -/
structure AttributeCache where
  pkey : String
  skey : String
  expiresAt : Int
  timestamp : Time
  attrKey : String
  attrType : String
  attrValue : String
  attrContext : List String
  deriving DecidableEq, Repr

/-- Modelled from the spec: `models.AlertCache` — an append-only record of a
serialized raw alert payload. -/
structure AlertCacheRec where
  pkey : String
  skey : String
  expiresAt : Int
  alertData : Json

/-- Modelled from the spec: `models.InspectorReportRecord` — an append-only
record of a serialized Finding. -/
structure InspectorReportRecord where
  pkey : String
  skey : String
  expiresAt : Int
  data : Json

/-- Modelled from the spec: the state of the key-value store, one collection
per record family. -/
structure Store where
  alertEntries : List AlertEntry := []
  attrCaches : List AttributeCache := []
  alertCaches : List AlertCacheRec := []
  inspectorReports : List InspectorReportRecord := []

/-- Modelled from the spec: outcome of a conditional put — created, a
conditional-check failure (`IsConditionalCheckErr`), or any other store
failure. -/
inductive RepoPutResult where
  | ok (s : Store)
  | condFail
  | other (msg : String)

/-- Modelled from the spec: the live alert entry at a key, if any: a record
whose expiry has not passed at the given instant. -/
def findLiveAlertEntry (s : Store) (pk sk : String) (now : Int) : Option AlertEntry :=
  s.alertEntries.find? (fun r =>
    decide (r.pkey = pk) && decide (r.skey = sk) && decide (now ≤ r.expiresAt))

/-- Modelled from the spec: `repo.GetAlertEntry` — point read by key. -/
def repoGetAlertEntry (s : Store) (pk sk : String) : Option AlertEntry :=
  s.alertEntries.find? (fun r => decide (r.pkey = pk) && decide (r.skey = sk))

/-- Modelled from the spec: `repo.PutAlertEntry` — conditional create of the
AlertEntry: fails with a conditional-check failure when a live record
occupies the key, otherwise writes (replacing any expired record there). -/
def repoPutAlertEntry (s : Store) (e : AlertEntry) (now : Time) : RepoPutResult :=
  if (findLiveAlertEntry s e.pkey e.skey now.sec).isSome then
    .condFail
  else
    .ok { s with alertEntries :=
      s.alertEntries.filter (fun r =>
        !(decide (r.pkey = e.pkey) && decide (r.skey = e.skey))) ++ [e] }

/-- Modelled from the spec: the live attribute-cache record at a key. -/
def findLiveAttrCache (s : Store) (pk sk : String) (now : Int) : Option AttributeCache :=
  s.attrCaches.find? (fun r =>
    decide (r.pkey = pk) && decide (r.skey = sk) && decide (now ≤ r.expiresAt))

/-- Modelled from the spec: `repo.PutAttributeCache` — conditional create of
the AttributeCache record. -/
def repoPutAttributeCache (s : Store) (c : AttributeCache) (now : Time) : RepoPutResult :=
  if (findLiveAttrCache s c.pkey c.skey now.sec).isSome then
    .condFail
  else
    .ok { s with attrCaches :=
      s.attrCaches.filter (fun r =>
        !(decide (r.pkey = c.pkey) && decide (r.skey = c.skey))) ++ [c] }

/-! ## Report assignment (`TakeReport`, api.go lines 166-203)

`uuid.New()` is embedded as the explicit `freshID` argument: the caller
passes the freshly generated ReportID.  The Go `now.UTC().Add(ttl).Unix()`
and `now.UTC().Unix()` are `now.sec + ttl` and `now.sec`. -/

/-- `TakeReport` (api.go lines 166-203): conditional-create an AlertEntry at
key `alertmap/{AlertID}`; on success return a `New` report carrying the
fresh ReportID and `now`; on a conditional-check failure read back the
existing entry and return a `More` report with its ReportID and its stored
creation time (`time.Unix(CreatedAt, 0)`). -/
def TakeReport (ttl : Int) (s : Store) (alert : Alert) (now : Time) (freshID : String) :
    Store × Except String Report :=
  let alertID := alert.alertID
  let entry : AlertEntry :=
    { pkey := "alertmap/" ++ alertID, skey := "Fixed",
      expiresAt := now.sec + ttl, createdAt := now.sec, reportID := freshID }
  match repoPutAlertEntry s entry now with
  | .ok s2 => (s2, .ok { id := freshID, status := .new, createdAt := now })
  | .condFail =>
    match repoGetAlertEntry s entry.pkey entry.skey with
    | some existed =>
      (s, .ok { id := existed.reportID, status := .more,
                createdAt := ⟨existed.createdAt, 0⟩ })
    | none => (s, .error "Fail to get cached reportID")
  | .other msg => (s, .error ("Fail to create new alert entry: " ++ msg))

/-! ## Alert payload cache (api.go lines 209-254)

The random sort-key suffix from `toAlertCacheKey` is embedded as the
explicit `freshSK` argument. -/

/-- `SaveAlertCache` (api.go lines 213-234): marshal the alert and append it
under partition `alert/{ReportID}`, sort key `cache/{random}`. -/
def SaveAlertCache (ttl : Int) (s : Store) (reportID : String) (alert : Alert)
    (now : Time) (freshSK : String) : Store :=
  { s with alertCaches := s.alertCaches ++
      [{ pkey := "alert/" ++ reportID, skey := "cache/" ++ freshSK,
         expiresAt := now.sec + ttl, alertData := encodeAlert alert }] }

/-- The unmarshal loop of `FetchAlertCache` (api.go lines 245-251): decode
every cached alert in scan order, failing on the first malformed one. -/
def decodeAlertCaches : List AlertCacheRec → Except String (List Alert)
  | [] => .ok []
  | c :: rest =>
    match decodeAlert c.alertData with
    | none => .error "Fail to unmarshal alert"
    | some a =>
      match decodeAlertCaches rest with
      | .error e => .error e
      | .ok l => .ok (a :: l)

/-- `FetchAlertCache` (api.go lines 236-254): scan the `alert/{ReportID}`
partition and unmarshal every cached alert. -/
def FetchAlertCache (s : Store) (reportID : String) : Except String (List Alert) :=
  decodeAlertCaches
    (s.alertCaches.filter (fun c => decide (c.pkey = "alert/" ++ reportID)))

/-! ## Finding persistence and fetch (api.go lines 260-317) -/

/-- `SaveInspectReport` (api.go lines 269-290): marshal the finding and
append it under partition `content/{ReportID}`, sort key
`{AttrHash}/{random}` (the random suffix is the explicit `freshSK`). -/
def SaveInspectReport (ttl : Int) (s : Store) (sect : InspectReport)
    (now : Time) (freshSK : String) : Store :=
  { s with inspectorReports := s.inspectorReports ++
      [{ pkey := "content/" ++ sect.reportID,
         skey := sect.attr.hash ++ "/" ++ freshSK,
         expiresAt := now.sec + ttl, data := encodeInspectReport sect }] }

/-- The unmarshal loop of `FetchInspectReport` (api.go lines 301-310):
decode every stored finding in scan order, failing on the first malformed
one. -/
def decodeInspectorRecords :
    List InspectorReportRecord → Except String (List InspectReport)
  | [] => .ok []
  | r :: rest =>
    match decodeInspectReport r.data with
    | none => .error "Fail to unmarshal report content"
    | some ir =>
      match decodeInspectorRecords rest with
      | .error e => .error e
      | .ok l => .ok (ir :: l)

/-- The scan-and-unmarshal stage of `FetchInspectReport` (api.go lines
295-310): decode every record of the `content/{ReportID}` partition. -/
def fetchInspectRecords (s : Store) (reportID : String) :
    Except String (List InspectReport) :=
  decodeInspectorRecords
    (s.inspectorReports.filter (fun r =>
      decide (r.pkey = "content/" ++ reportID)))

/-- `FetchInspectReport` (api.go lines 292-317): fetch the stored findings
and remap them into sections. -/
def FetchInspectReport (s : Store) (reportID : String) :
    Except String (List ReportSection) :=
  match fetchInspectRecords s reportID with
  | .error e => .error e
  | .ok reports => remapSection reports

/-! ## Attribute dispatch dedup (api.go lines 366-443) -/

/-- `toAttributeCacheKey` (api.go lines 366-368). -/
def toAttributeCacheKey (reportID : String) : String :=
  "attribute/" ++ reportID

/-- The AttributeCache record built by `PutAttributeCache` (api.go lines
386-404): a nil attribute timestamp defaults to `now`. -/
def mkAttributeCache (ttl : Int) (reportID : String) (attr : Attribute)
    (now : Time) : AttributeCache :=
  { pkey := toAttributeCacheKey reportID, skey := attr.hash,
    expiresAt := now.sec + ttl,
    timestamp := attr.timestamp.getD now,
    attrKey := attr.key, attrType := attr.attrType,
    attrValue := attr.value, attrContext := attr.context }

/-- The branching of `PutAttributeCache` on the repository outcome (api.go
lines 406-417): created maps to `true`, a conditional-check failure maps to
`(false, nil)`, any other failure is wrapped and propagated. -/
def putAttributeCacheResult (s : Store) : RepoPutResult → Store × Except String Bool
  | .ok s2 => (s2, .ok true)
  | .condFail => (s, .ok false)
  | .other msg => (s, .error ("Fail to put attr cache: " ++ msg))

/-- `PutAttributeCache` (api.go lines 385-418): conditional-create the
AttributeCache record at key `(attribute/{ReportID}, AttributeHash)` and map
the outcome. -/
def PutAttributeCache (ttl : Int) (s : Store) (reportID : String)
    (attr : Attribute) (now : Time) : Store × Except String Bool :=
  putAttributeCacheResult s
    (repoPutAttributeCache s (mkAttributeCache ttl reportID attr now) now)

/-- `FetchAttributeCache` (api.go lines 421-443): scan the
`attribute/{ReportID}` partition and rebuild the attributes; the rebuilt
timestamp is always the address of the stored (non-optional) cache
timestamp. -/
def FetchAttributeCache (s : Store) (reportID : String) : List Attribute :=
  (s.attrCaches.filter (fun c =>
      decide (c.pkey = toAttributeCacheKey reportID))).map
    (fun c =>
      { attrType := c.attrType, key := c.attrKey, value := c.attrValue,
        context := c.attrContext, timestamp := some c.timestamp })

/-! ## Sample values used by concrete witnesses -/

/-- A concrete attribute used by the concrete witness instances. -/
def sampleAttr : Attribute :=
  { attrType := "ipaddr", key := "src_ip", value := "10.0.0.1",
    context := [], timestamp := none }

/-- A second concrete attribute with a different hash. -/
def sampleAttrB : Attribute :=
  { attrType := "domain", key := "dst_domain", value := "example.com",
    context := [], timestamp := none }

/-- A concrete alert used by the concrete witness instances. -/
def sampleAlert : Alert :=
  { detector := "edr", ruleName := "malware", alertKey := "host-1",
    attributes := [sampleAttr], timestamp := none }

/-! ## Theorems -/

/-- Claim C3: given findings F1 (Host content) and F2 (User content) on the
same attribute (hash H) and F3 (Host content) on an attribute with a
different hash, `remapSection` returns exactly one section for hash H whose
Hosts hold F1's host and whose Users hold F2's user, plus a second
independent section for the other hash; within each group the first finding
encountered initializes the section's `OriginAttr`. -/
theorem remapSection_groups_by_hash (rid : String) (A B : Attribute)
    (h : ReportHost) (u : ReportUser) (h3 : ReportHost)
    (hne : A.hash ≠ B.hash) :
    remapSection [⟨rid, A, contentHost, .host h⟩, ⟨rid, A, contentUser, .user u⟩,
                  ⟨rid, B, contentHost, .host h3⟩] =
      .ok [{ originAttr := A, hosts := [h], users := [u], binaries := [] },
           { originAttr := B, hosts := [h3], users := [], binaries := [] }] := by
  simp [remapSection, remapSectionAux, lookupSec, updateSec, addContent,
        contentHost, contentUser, contentBinary, hne, Ne.symm hne]

/-- Claim C3 witness: the grouping theorem applied at concrete findings. -/
theorem remapSection_groups_by_hash_witness :
    sampleAttr.hash ≠ sampleAttrB.hash ∧
    remapSection [⟨"r1", sampleAttr, contentHost, .host ⟨"h1"⟩⟩,
                  ⟨"r1", sampleAttr, contentUser, .user ⟨"u1"⟩⟩,
                  ⟨"r1", sampleAttrB, contentHost, .host ⟨"h3"⟩⟩] =
      .ok [{ originAttr := sampleAttr, hosts := [⟨"h1"⟩], users := [⟨"u1"⟩],
             binaries := [] },
           { originAttr := sampleAttrB, hosts := [⟨"h3"⟩], users := [],
             binaries := [] }] :=
  ⟨by decide,
   remapSection_groups_by_hash "r1" sampleAttr sampleAttrB ⟨"h1"⟩ ⟨"u1"⟩ ⟨"h3"⟩
     (by decide)⟩

/-- Claim C5 (code bug evidence): a finding whose declared kind is Binary
but whose payload is a user payload makes `remapSection` fail — but the
error message of the `ContentBinary` branch names `ReportHost` (a
copy-paste slip in the source), so the error does not identify the
mismatched type. -/
theorem remapSection_binary_mismatch_eval :
    remapSection [⟨"r1", sampleAttr, contentBinary, .user ⟨"u1"⟩⟩] =
      .error "Can not cast content to deepalert.ReportHost" := rfl

/-- Claim C8: a finding whose declared kind is none of Host, User or Binary
does not fail section assembly: it still creates (or joins) the section for
its attribute hash, initializing `OriginAttr` when it is first, but its
payload lands in no collection, so a section may have a set `OriginAttr`
with empty Hosts, Users and Binaries. -/
theorem remapSection_unknown_kind (rid : String) (A : Attribute)
    (c : ReportContent) (ty : String) (h : ReportHost)
    (h1 : ty ≠ contentHost) (h2 : ty ≠ contentUser) (h3 : ty ≠ contentBinary) :
    remapSection [⟨rid, A, ty, c⟩] =
      .ok [{ originAttr := A, hosts := [], users := [], binaries := [] }] ∧
    remapSection [⟨rid, A, contentHost, .host h⟩, ⟨rid, A, ty, c⟩] =
      .ok [{ originAttr := A, hosts := [h], users := [], binaries := [] }] := by
  constructor <;>
    simp [remapSection, remapSectionAux, lookupSec, updateSec, addContent,
          h1, h2, h3]

/-- Claim C8 witness: the unknown-kind theorem applied at a concrete
finding with kind tag `"process"`. -/
theorem remapSection_unknown_kind_witness :
    ("process" ≠ contentHost ∧ "process" ≠ contentUser ∧
      "process" ≠ contentBinary) ∧
    remapSection [⟨"r1", sampleAttr, "process", .host ⟨"p1"⟩⟩] =
      .ok [{ originAttr := sampleAttr, hosts := [], users := [],
             binaries := [] }] :=
  ⟨⟨by decide, by decide, by decide⟩,
   (remapSection_unknown_kind "r1" sampleAttr (.host ⟨"p1"⟩) "process" ⟨"x"⟩
     (by decide) (by decide) (by decide)).1⟩

/-- A search whose predicate entails the key match finds exactly the fresh
record in a slice where all same-key records were filtered out and the fresh
record appended. -/
theorem find?_filter_append {α : Type} (q p : α → Bool) (e : α) (l : List α)
    (hqp : ∀ r, q r = false → p r = false) (he : p e = true) :
    ((l.filter fun r => !q r) ++ [e]).find? p = some e := by
  induction l with
  | nil => simp [List.find?, he]
  | cons a l ih =>
    by_cases hq : q a = true
    · simpa [List.filter_cons, hq] using ih
    · have hq2 : q a = false := by simpa using hq
      simp [List.filter_cons, hq2, List.find?, hqp a hq2, ih]

/-- The empty store. -/
def emptyStore : Store := {}

/-- Evaluation of `TakeReport` when no live AlertEntry occupies the key: the
conditional create succeeds and a `New` report is returned. -/
theorem takeReport_fresh_eq (ttl : Int) (s : Store) (a : Alert) (now : Time)
    (fid : String)
    (h0 : findLiveAlertEntry s ("alertmap/" ++ a.alertID) "Fixed" now.sec = none) :
    TakeReport ttl s a now fid =
      ({ s with alertEntries :=
          s.alertEntries.filter (fun r =>
            !(decide (r.pkey = "alertmap/" ++ a.alertID) &&
              decide (r.skey = "Fixed")))
          ++ [⟨"alertmap/" ++ a.alertID, "Fixed", now.sec + ttl, now.sec, fid⟩] },
        .ok { id := fid, status := .new, createdAt := now }) := by
  unfold TakeReport repoPutAlertEntry
  simp only []
  rw [h0]
  rfl

/-- Evaluation of `TakeReport` when a live AlertEntry occupies the key: the
conditional create fails, the existing entry is read back, and a `More`
report with the existing ReportID and stored creation time is returned. -/
theorem takeReport_dup_eq (ttl : Int) (s : Store) (a : Alert) (now : Time)
    (fid : String) (live e : AlertEntry)
    (hl : findLiveAlertEntry s ("alertmap/" ++ a.alertID) "Fixed" now.sec =
      some live)
    (hget : repoGetAlertEntry s ("alertmap/" ++ a.alertID) "Fixed" = some e) :
    TakeReport ttl s a now fid =
      (s, .ok { id := e.reportID, status := .more,
                createdAt := ⟨e.createdAt, 0⟩ }) := by
  unfold TakeReport repoPutAlertEntry
  simp only []
  rw [hl, hget]
  rfl

/-- Claim C1: two calls to `TakeReport` for the same AlertID within the TTL
window return the same ReportID; the window-opening call returns status
`New`, and the later call returns status `More` by reading back the
existing AlertEntry after the conditional create fails with a
conditional-check failure. -/
theorem takeReport_dedup_idempotent (ttl : Int) (s0 : Store) (a : Alert)
    (t1 t2 : Time) (id1 id2 : String)
    (h0 : findLiveAlertEntry s0 ("alertmap/" ++ a.alertID) "Fixed" t1.sec = none)
    (hwin : t2.sec ≤ t1.sec + ttl) :
    ∃ s1 : Store,
      TakeReport ttl s0 a t1 id1 =
        (s1, .ok { id := id1, status := .new, createdAt := t1 }) ∧
      TakeReport ttl s1 a t2 id2 =
        (s1, .ok { id := id1, status := .more, createdAt := ⟨t1.sec, 0⟩ }) := by
  refine ⟨_, takeReport_fresh_eq ttl s0 a t1 id1 h0, ?_⟩
  have hl : findLiveAlertEntry
      ({ s0 with alertEntries :=
          s0.alertEntries.filter (fun r =>
            !(decide (r.pkey = "alertmap/" ++ a.alertID) &&
              decide (r.skey = "Fixed")))
          ++ [⟨"alertmap/" ++ a.alertID, "Fixed", t1.sec + ttl, t1.sec, id1⟩] })
      ("alertmap/" ++ a.alertID) "Fixed" t2.sec =
      some ⟨"alertmap/" ++ a.alertID, "Fixed", t1.sec + ttl, t1.sec, id1⟩ := by
    unfold findLiveAlertEntry
    exact find?_filter_append
      (fun r => decide (r.pkey = "alertmap/" ++ a.alertID) &&
        decide (r.skey = "Fixed"))
      (fun r => decide (r.pkey = "alertmap/" ++ a.alertID) &&
        decide (r.skey = "Fixed") && decide (t2.sec ≤ r.expiresAt))
      ⟨"alertmap/" ++ a.alertID, "Fixed", t1.sec + ttl, t1.sec, id1⟩
      s0.alertEntries
      (fun r hr => by
        simp only [] at hr ⊢
        rw [hr]
        exact Bool.false_and _)
      (by simp [hwin])
  have hget : repoGetAlertEntry
      ({ s0 with alertEntries :=
          s0.alertEntries.filter (fun r =>
            !(decide (r.pkey = "alertmap/" ++ a.alertID) &&
              decide (r.skey = "Fixed")))
          ++ [⟨"alertmap/" ++ a.alertID, "Fixed", t1.sec + ttl, t1.sec, id1⟩] })
      ("alertmap/" ++ a.alertID) "Fixed" =
      some ⟨"alertmap/" ++ a.alertID, "Fixed", t1.sec + ttl, t1.sec, id1⟩ := by
    unfold repoGetAlertEntry
    exact find?_filter_append
      (fun r => decide (r.pkey = "alertmap/" ++ a.alertID) &&
        decide (r.skey = "Fixed"))
      (fun r => decide (r.pkey = "alertmap/" ++ a.alertID) &&
        decide (r.skey = "Fixed"))
      ⟨"alertmap/" ++ a.alertID, "Fixed", t1.sec + ttl, t1.sec, id1⟩
      s0.alertEntries
      (fun r hr => hr)
      (by simp)
  exact takeReport_dup_eq ttl _ a t2 id2 _ _ hl hget

/-- Claim C1 witness: the dedup theorem applied at a concrete alert, an
empty store and two instants 50 seconds apart. -/
theorem takeReport_dedup_idempotent_witness :
    findLiveAlertEntry emptyStore ("alertmap/" ++ sampleAlert.alertID) "Fixed"
        (Time.mk 100 5).sec = none ∧
    (Time.mk 150 0).sec ≤ (Time.mk 100 5).sec + 300 ∧
    ∃ s1 : Store,
      TakeReport 300 emptyStore sampleAlert ⟨100, 5⟩ "rid-1" =
        (s1, .ok { id := "rid-1", status := .new, createdAt := ⟨100, 5⟩ }) ∧
      TakeReport 300 s1 sampleAlert ⟨150, 0⟩ "rid-2" =
        (s1, .ok { id := "rid-1", status := .more, createdAt := ⟨100, 0⟩ }) :=
  ⟨by decide, by decide,
   takeReport_dedup_idempotent 300 emptyStore sampleAlert ⟨100, 5⟩ ⟨150, 0⟩
     "rid-1" "rid-2" (by decide) (by decide)⟩

/-- Claim C6: a `TakeReport` call made after every AlertEntry for the
alert's key has expired (its stored `ExpiresAt` lies before `now`) succeeds
in creating a fresh entry and returns the freshly generated ReportID —
distinct from the previous window's ReportID, as the fresh id is a new
uuid — with status `New`. -/
theorem takeReport_window_expiry (ttl : Int) (s : Store) (a : Alert)
    (now : Time) (freshID : String) (e : AlertEntry)
    (_he : e ∈ s.alertEntries)
    (_hek : e.pkey = "alertmap/" ++ a.alertID ∧ e.skey = "Fixed")
    (hall : ∀ r ∈ s.alertEntries,
      r.pkey = "alertmap/" ++ a.alertID → r.skey = "Fixed" →
        r.expiresAt < now.sec)
    (hfresh : freshID ≠ e.reportID) :
    ∃ s2 : Store,
      TakeReport ttl s a now freshID =
        (s2, .ok { id := freshID, status := .new, createdAt := now }) ∧
      freshID ≠ e.reportID := by
  have h0 : findLiveAlertEntry s ("alertmap/" ++ a.alertID) "Fixed" now.sec
      = none := by
    unfold findLiveAlertEntry
    rw [List.find?_eq_none]
    intro r hr
    by_cases hpk : r.pkey = "alertmap/" ++ a.alertID
    · by_cases hsk : r.skey = "Fixed"
      · have := hall r hr hpk hsk
        simp [hpk, hsk]
        omega
      · simp [hsk]
    · simp [hpk]
  exact ⟨_, takeReport_fresh_eq ttl s a now freshID h0, hfresh⟩

/-- Claim C6 witness: the window-expiry theorem applied at a store holding a
single alert entry that expired at 400, queried at 500. -/
theorem takeReport_window_expiry_witness :
    ((⟨"alertmap/" ++ sampleAlert.alertID, "Fixed", 400, 100, "rid-old"⟩ :
        AlertEntry) ∈
      ({ alertEntries :=
          [⟨"alertmap/" ++ sampleAlert.alertID, "Fixed", 400, 100, "rid-old"⟩] } :
        Store).alertEntries) ∧
    ("rid-new" : String) ≠ "rid-old" ∧
    ∃ s2 : Store,
      TakeReport 300
          { alertEntries :=
            [⟨"alertmap/" ++ sampleAlert.alertID, "Fixed", 400, 100, "rid-old"⟩] }
          sampleAlert ⟨500, 0⟩ "rid-new" =
        (s2, .ok { id := "rid-new", status := .new, createdAt := ⟨500, 0⟩ }) ∧
      ("rid-new" : String) ≠ "rid-old" :=
  ⟨by decide, by decide,
   takeReport_window_expiry 300
     { alertEntries :=
        [⟨"alertmap/" ++ sampleAlert.alertID, "Fixed", 400, 100, "rid-old"⟩] }
     sampleAlert ⟨500, 0⟩ "rid-new"
     ⟨"alertmap/" ++ sampleAlert.alertID, "Fixed", 400, 100, "rid-old"⟩
     (by decide) (by decide)
     (by intro r hr h1 h2; simp at hr; simp [hr]) (by decide)⟩

/-- Claim C10: on a duplicate assignment (the conditional create hits a live
AlertEntry) `TakeReport` returns a report whose `CreatedAt` is the original
entry's creation time truncated to whole seconds — not the current call's
`now` — with empty `Alerts` and `Sections`; on a first assignment it
returns `CreatedAt` equal to the `now` passed in. -/
theorem takeReport_createdAt (ttl : Int) (s : Store) (a : Alert)
    (now : Time) (freshID : String) :
    (∀ e : AlertEntry,
      repoGetAlertEntry s ("alertmap/" ++ a.alertID) "Fixed" = some e →
      now.sec ≤ e.expiresAt →
      TakeReport ttl s a now freshID =
        (s, .ok { id := e.reportID, status := .more,
                  createdAt := ⟨e.createdAt, 0⟩, alerts := [], sections := [] })) ∧
    (findLiveAlertEntry s ("alertmap/" ++ a.alertID) "Fixed" now.sec = none →
      (TakeReport ttl s a now freshID).2 =
        .ok { id := freshID, status := .new, createdAt := now,
              alerts := [], sections := [] }) := by
  constructor
  · intro e hget hle
    cases hfl : findLiveAlertEntry s ("alertmap/" ++ a.alertID) "Fixed" now.sec
      with
    | none =>
      exfalso
      unfold findLiveAlertEntry at hfl
      unfold repoGetAlertEntry at hget
      have hmem := List.mem_of_find?_eq_some hget
      have hkey := List.find?_some hget
      have := List.find?_eq_none.mp hfl e hmem
      simp only [Bool.and_eq_true, decide_eq_true_eq] at hkey this
      exact this ⟨hkey, hle⟩
    | some e2 =>
      exact takeReport_dup_eq ttl s a now freshID e2 e hfl hget
  · intro h0
    rw [takeReport_fresh_eq ttl s a now freshID h0]

/-- Claim C10 witness: the createdAt theorem applied at a store holding a
live entry created at 100 (queried at 150.7), and at the empty store. -/
theorem takeReport_createdAt_witness :
    TakeReport 300
        { alertEntries :=
          [⟨"alertmap/" ++ sampleAlert.alertID, "Fixed", 400, 100, "rid-1"⟩] }
        sampleAlert ⟨150, 7⟩ "rid-x" =
      ({ alertEntries :=
          [⟨"alertmap/" ++ sampleAlert.alertID, "Fixed", 400, 100, "rid-1"⟩] },
        .ok { id := "rid-1", status := .more, createdAt := ⟨100, 0⟩,
              alerts := [], sections := [] }) ∧
    (TakeReport 300 emptyStore sampleAlert ⟨100, 5⟩ "rid-1").2 =
      .ok { id := "rid-1", status := .new, createdAt := ⟨100, 5⟩,
            alerts := [], sections := [] } :=
  ⟨(takeReport_createdAt 300
      { alertEntries :=
        [⟨"alertmap/" ++ sampleAlert.alertID, "Fixed", 400, 100, "rid-1"⟩] }
      sampleAlert ⟨150, 7⟩ "rid-x").1
      ⟨"alertmap/" ++ sampleAlert.alertID, "Fixed", 400, 100, "rid-1"⟩
      (by decide) (by decide),
   (takeReport_createdAt 300 emptyStore sampleAlert ⟨100, 5⟩ "rid-1").2
      (by decide)⟩

/-- Evaluation of `PutAttributeCache` when no live AttributeCache record
occupies the key: the conditional create succeeds and `true` is returned. -/
theorem putAttributeCache_fresh_eq (ttl : Int) (s : Store) (rid : String)
    (attr : Attribute) (now : Time)
    (h0 : findLiveAttrCache s (toAttributeCacheKey rid) attr.hash now.sec = none) :
    PutAttributeCache ttl s rid attr now =
      ({ s with attrCaches :=
          s.attrCaches.filter (fun r =>
            !(decide (r.pkey = toAttributeCacheKey rid) &&
              decide (r.skey = attr.hash)))
          ++ [mkAttributeCache ttl rid attr now] },
        .ok true) := by
  unfold PutAttributeCache repoPutAttributeCache mkAttributeCache
  simp only []
  rw [h0]
  rfl

/-- Evaluation of `PutAttributeCache` when a live AttributeCache record
occupies the key: the conditional-check failure is mapped to `(false, nil)`
and the store is untouched. -/
theorem putAttributeCache_dup_eq (ttl : Int) (s : Store) (rid : String)
    (attr : Attribute) (now : Time) (c : AttributeCache)
    (hl : findLiveAttrCache s (toAttributeCacheKey rid) attr.hash now.sec =
      some c) :
    PutAttributeCache ttl s rid attr now = (s, .ok false) := by
  unfold PutAttributeCache repoPutAttributeCache mkAttributeCache
  simp only []
  rw [hl]
  rfl

/-- Claim C2: attribute dispatch is at-most-once per (ReportID, Attribute)
pair: a `PutAttributeCache` call made while the AttributeCache record for
the pair exists returns `false` and leaves the store unchanged, and once a
call has returned `true` every further call for the same pair within the
TTL window returns `false`. -/
theorem putAttributeCache_at_most_once (ttl : Int) (s : Store) (rid : String)
    (attr : Attribute) (now : Time) :
    ((findLiveAttrCache s (toAttributeCacheKey rid) attr.hash now.sec).isSome =
        true →
      PutAttributeCache ttl s rid attr now = (s, .ok false)) ∧
    (∀ s2, PutAttributeCache ttl s rid attr now = (s2, .ok true) →
      ∀ t2 : Time, t2.sec ≤ now.sec + ttl →
        PutAttributeCache ttl s2 rid attr t2 = (s2, .ok false)) := by
  constructor
  · intro hsome
    obtain ⟨c, hc⟩ := Option.isSome_iff_exists.mp hsome
    exact putAttributeCache_dup_eq ttl s rid attr now c hc
  · intro s2 hput t2 ht2
    cases hfl : findLiveAttrCache s (toAttributeCacheKey rid) attr.hash now.sec
      with
    | some c =>
      rw [putAttributeCache_dup_eq ttl s rid attr now c hfl] at hput
      simp at hput
    | none =>
      rw [putAttributeCache_fresh_eq ttl s rid attr now hfl] at hput
      injection hput with h1 h2
      subst h1
      refine putAttributeCache_dup_eq ttl _ rid attr t2
        (mkAttributeCache ttl rid attr now) ?_
      unfold findLiveAttrCache
      exact find?_filter_append
        (fun r => decide (r.pkey = toAttributeCacheKey rid) &&
          decide (r.skey = attr.hash))
        (fun r => decide (r.pkey = toAttributeCacheKey rid) &&
          decide (r.skey = attr.hash) && decide (t2.sec ≤ r.expiresAt))
        (mkAttributeCache ttl rid attr now)
        s.attrCaches
        (fun r hr => by
          simp only [] at hr ⊢
          rw [hr]
          exact Bool.false_and _)
        (by simp [mkAttributeCache, ht2])

/-- The store after one successful attribute dispatch for `sampleAttr`. -/
def attrStore1 : Store :=
  (PutAttributeCache 300 emptyStore "r1" sampleAttr ⟨100, 0⟩).1

/-- Claim C2 witness: the at-most-once theorem applied after one successful
dispatch of a concrete attribute. -/
theorem putAttributeCache_at_most_once_witness :
    PutAttributeCache 300 attrStore1 "r1" sampleAttr ⟨150, 0⟩ =
      (attrStore1, .ok false) :=
  (putAttributeCache_at_most_once 300 emptyStore "r1" sampleAttr ⟨100, 0⟩).2
    attrStore1 rfl ⟨150, 0⟩ (by decide)

/-- Claim C4: `PutAttributeCache` returns `(true, nil)` when the
conditional create succeeds, `(false, nil)` exactly when the store reports
a conditional-check failure, and a wrapped error for every other store
failure; the conditional-check failure is never surfaced as an error. -/
theorem putAttributeCache_error_mapping (ttl : Int) (s : Store) (rid : String)
    (attr : Attribute) (now : Time) :
    (∀ s2, repoPutAttributeCache s (mkAttributeCache ttl rid attr now) now =
        .ok s2 →
      PutAttributeCache ttl s rid attr now = (s2, .ok true)) ∧
    (repoPutAttributeCache s (mkAttributeCache ttl rid attr now) now =
        .condFail →
      PutAttributeCache ttl s rid attr now = (s, .ok false)) ∧
    (∀ r, (putAttributeCacheResult s r).2 = .ok false ↔ r = .condFail) ∧
    (∀ r, (∃ msg, (putAttributeCacheResult s r).2 = .error msg) ↔
      ∃ msg, r = .other msg) := by
  refine ⟨?_, ?_, ?_, ?_⟩
  · intro s2 h
    unfold PutAttributeCache
    rw [h]
    rfl
  · intro h
    unfold PutAttributeCache
    rw [h]
    rfl
  · intro r
    cases r <;> simp [putAttributeCacheResult]
  · intro r
    cases r <;> simp [putAttributeCacheResult]

/-- Claim C4 witness: the error-mapping theorem applied at concrete
outcomes — a put on the empty store succeeds with `true`, a
conditional-check failure maps to `(false, nil)`, and another store failure
maps to an error. -/
theorem putAttributeCache_error_mapping_witness :
    PutAttributeCache 300 emptyStore "r1" sampleAttr ⟨100, 0⟩ =
      (attrStore1, .ok true) ∧
    (putAttributeCacheResult emptyStore .condFail).2 = .ok false ∧
    ∃ msg, (putAttributeCacheResult emptyStore (.other "boom")).2 =
      .error msg :=
  ⟨(putAttributeCache_error_mapping 300 emptyStore "r1" sampleAttr ⟨100, 0⟩).1
      attrStore1 rfl,
   ((putAttributeCache_error_mapping 300 emptyStore "r1" sampleAttr
      ⟨100, 0⟩).2.2.1 .condFail).mpr rfl,
   ((putAttributeCache_error_mapping 300 emptyStore "r1" sampleAttr
      ⟨100, 0⟩).2.2.2 (.other "boom")).mpr ⟨"boom", rfl⟩⟩

/-- Claim C9: a successful `PutAttributeCache` stores the attribute's own
timestamp when present and the call's `now` when the timestamp is nil, and
`FetchAttributeCache` never returns an attribute with a nil timestamp. -/
theorem attributeCache_timestamp_defaulting (ttl : Int) (s : Store)
    (rid : String) (attr : Attribute) (now : Time) :
    (∀ s2, PutAttributeCache ttl s rid attr now = (s2, .ok true) →
      ∃ c ∈ s2.attrCaches,
        c.pkey = toAttributeCacheKey rid ∧ c.skey = attr.hash ∧
        c.timestamp = attr.timestamp.getD now) ∧
    (∀ a2 ∈ FetchAttributeCache s rid, a2.timestamp.isSome = true) := by
  constructor
  · intro s2 hput
    cases hfl : findLiveAttrCache s (toAttributeCacheKey rid) attr.hash now.sec
      with
    | some c =>
      rw [putAttributeCache_dup_eq ttl s rid attr now c hfl] at hput
      simp at hput
    | none =>
      rw [putAttributeCache_fresh_eq ttl s rid attr now hfl] at hput
      injection hput with h1 h2
      subst h1
      refine ⟨mkAttributeCache ttl rid attr now, ?_, rfl, rfl, rfl⟩
      simp
  · intro a2 ha2
    unfold FetchAttributeCache at ha2
    obtain ⟨c, hc, hca⟩ := List.mem_map.mp ha2
    rw [← hca]
    rfl

/-- Claim C9 witness: the timestamp theorem applied at a concrete attribute
with a nil timestamp, cached at time 100. -/
theorem attributeCache_timestamp_defaulting_witness :
    (∃ c ∈ attrStore1.attrCaches,
      c.pkey = toAttributeCacheKey "r1" ∧ c.skey = sampleAttr.hash ∧
      c.timestamp = sampleAttr.timestamp.getD ⟨100, 0⟩) ∧
    ∀ a2 ∈ FetchAttributeCache attrStore1 "r1", a2.timestamp.isSome = true :=
  ⟨(attributeCache_timestamp_defaulting 300 emptyStore "r1" sampleAttr
      ⟨100, 0⟩).1 attrStore1 rfl,
   (attributeCache_timestamp_defaulting 300 attrStore1 "r1" sampleAttr
      ⟨100, 0⟩).2⟩

/-- Instants survive the JSON round trip. -/
theorem decodeTime_encodeTime (t : Time) : decodeTime (encodeTime t) = some t := by
  cases t
  simp [encodeTime, decodeTime]

/-- Optional instants survive the JSON round trip. -/
theorem decodeOptTime_encodeOptTime (o : Option Time) :
    decodeOptTime (encodeOptTime o) = some o := by
  cases o with
  | none => rfl
  | some t =>
    show (decodeTime (encodeTime t)).map some = some (some t)
    rw [decodeTime_encodeTime]
    rfl

/-- String lists survive the JSON round trip. -/
theorem decodeStrs_encodeStrs (l : List String) :
    decodeStrs (l.map .str) = some l := by
  induction l with
  | nil => rfl
  | cons a l ih =>
    simp [decodeStrs, ih]

/-- JSON string arrays survive the round trip. -/
theorem decodeStrList_encodeStrList (l : List String) :
    decodeStrList (encodeStrList l) = some l := by
  simp [encodeStrList, decodeStrList, decodeStrs_encodeStrs]

/-- Attributes survive the JSON round trip. -/
theorem decodeAttribute_encodeAttribute (a : Attribute) :
    decodeAttribute (encodeAttribute a) = some a := by
  cases a
  simp [encodeAttribute, decodeAttribute, decodeStrList_encodeStrList,
        decodeOptTime_encodeOptTime]

/-- Attribute lists survive the JSON round trip. -/
theorem decodeAttrs_encodeAttrs (l : List Attribute) :
    decodeAttrs (l.map encodeAttribute) = some l := by
  induction l with
  | nil => rfl
  | cons a l ih =>
    simp [decodeAttrs, decodeAttribute_encodeAttribute, ih]

/-- Alerts survive the JSON round trip. -/
theorem decodeAlert_encodeAlert (a : Alert) :
    decodeAlert (encodeAlert a) = some a := by
  cases a
  simp [encodeAlert, decodeAlert, decodeAttrs_encodeAttrs,
        decodeOptTime_encodeOptTime]

/-- Content payloads survive the JSON round trip. -/
theorem decodeContent_encodeContent (c : ReportContent) :
    decodeContent (encodeContent c) = some c := by
  cases c <;> rfl

/-- Findings survive the JSON round trip. -/
theorem decodeInspectReport_encodeInspectReport (ir : InspectReport) :
    decodeInspectReport (encodeInspectReport ir) = some ir := by
  cases ir
  simp [encodeInspectReport, decodeInspectReport,
        decodeAttribute_encodeAttribute, decodeContent_encodeContent]

/-- Decoding a record list extended on the right by one well-decoding
record appends the decoded alert to the result. -/
theorem decodeAlertCaches_append (l : List AlertCacheRec) (x : AlertCacheRec)
    (a : Alert) (hx : decodeAlert x.alertData = some a) :
    decodeAlertCaches (l ++ [x]) =
      (decodeAlertCaches l).map (fun bs => bs ++ [a]) := by
  induction l with
  | nil => simp [decodeAlertCaches, hx, Except.map]
  | cons c rest ih =>
    cases hdc : decodeAlert c.alertData with
    | none => simp [decodeAlertCaches, hdc, Except.map]
    | some a2 =>
      cases hrest : decodeAlertCaches rest with
      | error e => simp [decodeAlertCaches, hdc, ih, hrest, Except.map]
      | ok bs => simp [decodeAlertCaches, hdc, ih, hrest, Except.map]

/-- Decoding an inspector-record list extended on the right by one
well-decoding record appends the decoded finding to the result. -/
theorem decodeInspectorRecords_append (l : List InspectorReportRecord)
    (x : InspectorReportRecord) (ir : InspectReport)
    (hx : decodeInspectReport x.data = some ir) :
    decodeInspectorRecords (l ++ [x]) =
      (decodeInspectorRecords l).map (fun bs => bs ++ [ir]) := by
  induction l with
  | nil => simp [decodeInspectorRecords, hx, Except.map]
  | cons c rest ih =>
    cases hdc : decodeInspectReport c.data with
    | none => simp [decodeInspectorRecords, hdc, Except.map]
    | some ir2 =>
      cases hrest : decodeInspectorRecords rest with
      | error e => simp [decodeInspectorRecords, hdc, ih, hrest, Except.map]
      | ok bs => simp [decodeInspectorRecords, hdc, ih, hrest, Except.map]

/-- `FetchAlertCache` after `SaveAlertCache` recovers the saved alert at the
end of the previously fetchable list: the serialize/deserialize pair is
lossless at the store level. -/
theorem fetchAlertCache_saveAlertCache (ttl : Int) (s : Store) (rid : String)
    (a : Alert) (now : Time) (sk : String) :
    FetchAlertCache (SaveAlertCache ttl s rid a now sk) rid =
      (FetchAlertCache s rid).map (fun l => l ++ [a]) := by
  unfold FetchAlertCache SaveAlertCache
  simp only []
  rw [List.filter_append]
  have hone : List.filter
      (fun c => decide (c.pkey = "alert/" ++ rid))
      [(⟨"alert/" ++ rid, "cache/" ++ sk, now.sec + ttl, encodeAlert a⟩ :
          AlertCacheRec)] =
      [⟨"alert/" ++ rid, "cache/" ++ sk, now.sec + ttl, encodeAlert a⟩] := by
    simp
  rw [hone]
  exact decodeAlertCaches_append _ _ a (by simp [decodeAlert_encodeAlert])

/-- The scan-and-decode stage of `FetchInspectReport` after
`SaveInspectReport` recovers the saved finding at the end of the previously
fetchable list. -/
theorem fetchInspectRecords_saveInspectReport (ttl : Int) (s : Store)
    (ir : InspectReport) (now : Time) (sk : String) :
    fetchInspectRecords (SaveInspectReport ttl s ir now sk) ir.reportID =
      (fetchInspectRecords s ir.reportID).map (fun l => l ++ [ir]) := by
  unfold fetchInspectRecords SaveInspectReport
  simp only []
  rw [List.filter_append]
  have hone : List.filter
      (fun r => decide (r.pkey = "content/" ++ ir.reportID))
      [(⟨"content/" ++ ir.reportID, ir.attr.hash ++ "/" ++ sk, now.sec + ttl,
          encodeInspectReport ir⟩ : InspectorReportRecord)] =
      [⟨"content/" ++ ir.reportID, ir.attr.hash ++ "/" ++ sk, now.sec + ttl,
          encodeInspectReport ir⟩] := by
    simp
  rw [hone]
  exact decodeInspectorRecords_append _ _ ir
    (by simp [decodeInspectReport_encodeInspectReport])

/-- Claim C7: serializing then deserializing an Alert or a Finding —
including the Finding's typed content payload — restores the original
value, both at the codec level and through the save/fetch pairs
`SaveAlertCache`/`FetchAlertCache` and
`SaveInspectReport`/`FetchInspectReport` (whose decode stage is
`fetchInspectRecords`). -/
theorem serialization_roundtrip :
    (∀ a : Alert, decodeAlert (encodeAlert a) = some a) ∧
    (∀ ir : InspectReport,
      decodeInspectReport (encodeInspectReport ir) = some ir) ∧
    (∀ (ttl : Int) (s : Store) (rid : String) (a : Alert) (now : Time)
        (sk : String),
      FetchAlertCache (SaveAlertCache ttl s rid a now sk) rid =
        (FetchAlertCache s rid).map (fun l => l ++ [a])) ∧
    (∀ (ttl : Int) (s : Store) (ir : InspectReport) (now : Time) (sk : String),
      fetchInspectRecords (SaveInspectReport ttl s ir now sk) ir.reportID =
        (fetchInspectRecords s ir.reportID).map (fun l => l ++ [ir])) :=
  ⟨decodeAlert_encodeAlert, decodeInspectReport_encodeInspectReport,
   fetchAlertCache_saveAlertCache, fetchInspectRecords_saveInspectReport⟩

end DeepAlert
